import Mathlib

/-!
Verification of the operation-stream core and its consumers.

The repository contains:
* the operation-stream test-suite (strategies `ApplyBackpressureWhenNonEmptyStrategy`,
  `AdjustableArrayBufferStrategy`, `AdjustableStringStrategy` and the end-to-end
  scenarios) — embedded below from the source,
* `ReadableOperationStream` (the high-level readable facade) — embedded from the source,
* `reference-implementation/lib/readable-stream.js` — embedded from the source.

The operation-stream pair itself (`createOperationStream`, `Operation`,
`OperationStatus`, `pipeOperationStreams`, `readableAcceptsReadAndCancel`) is part of
the repository but its file is not available; those definitions are modelled from the
specification (sections 3, 4.A, 4.B, 4.E) and are marked `Modelled from the spec:` in
their doc comments.
-/

namespace Streams

/-- Writable-side state machine states (spec section 3). -/
inductive WState where
  | writable | waiting | closed | aborted | cancelled
  deriving DecidableEq, Repr

/-- Readable-side state machine states (spec section 3). -/
inductive RState where
  | waiting | readable | drained | cancelled | aborted
  deriving DecidableEq, Repr

/-- Per-write status states (spec section 3: `waiting`, `completed`, `errored`). -/
inductive SState where
  | waiting | completed | errored
  deriving DecidableEq, Repr

/-- Operation types (spec section 3). -/
inductive OpType where
  | data | close | abort | cancel
  deriving DecidableEq, Repr

/-- A queuing strategy, as consumed by the pair: `size`, `shouldApplyBackpressure`,
optional `space`, `onWindowUpdate` over a strategy state `σ` (the adjustable
strategies cache a window). -/
structure Strategy (σ α : Type) where
  size : σ → α → Nat
  shouldApplyBackpressure : σ → Nat → Bool
  space : σ → Nat → Option Int
  onWindowUpdate : σ → Int → σ

/-- `ApplyBackpressureWhenNonEmptyStrategy` from the test file:
`shouldApplyBackpressure(queueSize) = queueSize > 0`.  The class defines no `size`,
`space` or `onWindowUpdate`; per spec section 4.A the pair treats a missing `size`
as 1 per item, and the optional members as absent. -/
def ApplyBackpressureWhenNonEmptyStrategy (α : Type) : Strategy Unit α where
  size := fun _ _ => 1
  shouldApplyBackpressure := fun _ queueSize => decide (queueSize > 0)
  space := fun _ _ => none
  onWindowUpdate := fun s _ => s

/-- A JS `ArrayBuffer`, observed by the strategies only through `byteLength`. -/
structure ArrayBuffer where
  byteLength : Nat
  deriving DecidableEq, Repr

/-- `AdjustableArrayBufferStrategy` from the test file: `_window` starts at 0,
`size(ab) = ab.byteLength`, `shouldApplyBackpressure(n) = n >= _window`,
`space(n) = Math.max(0, _window - n)`, `onWindowUpdate(w)` caches `w`. -/
def AdjustableArrayBufferStrategy : Strategy Int ArrayBuffer where
  size := fun _ ab => ab.byteLength
  shouldApplyBackpressure := fun w queueSize => decide ((queueSize : Int) ≥ w)
  space := fun w queueSize => some (max 0 (w - (queueSize : Int)))
  onWindowUpdate := fun _ v => v

/-- `AdjustableStringStrategy` from the test file: like the buffer variant but
`size(s) = s.length`. -/
def AdjustableStringStrategy : Strategy Int String where
  size := fun _ s => s.length
  shouldApplyBackpressure := fun w queueSize => decide ((queueSize : Int) ≥ w)
  space := fun w queueSize => some (max 0 (w - (queueSize : Int)))
  onWindowUpdate := fun _ v => v

/-- Modelled from the spec: a status record (section 3): `state`, `result`, and the
one-shot `ready` notification (modelled as a resolution flag). -/
structure OpStatus (α : Type) where
  state : SState
  result : Option α
  readyResolved : Bool
  deriving DecidableEq, Repr

/-- Modelled from the spec: an operation record (section 3): a `type`, an
`argument` (content for `data`, reason for `abort`/`cancel`, absent for `close`),
the size the strategy assigned at enqueue time (0 for control operations), and the
linked status, referenced by index into the pair's status table (`none` is the
sentinel non-observable status of control operations). -/
structure QOp (α : Type) where
  type : OpType
  argument : Option α
  size : Nat
  statusId : Option Nat
  deriving DecidableEq, Repr

/-- Modelled from the spec: the operation-stream pair (section 3): one FIFO queue,
one strategy state, one window, the two half state machines, the status table, and
the one-shot notifications of both halves.  `wReadyCount` / `rReadyCount` count
resolutions of the (re-armed) `ready` notifications; the other notifications are
one-shot flags. -/
structure Pair (σ α : Type) where
  strat : σ
  window : Int
  queue : List (QOp α)
  wState : WState
  rState : RState
  statuses : List (OpStatus α)
  wReadyCount : Nat
  wCancelledResolved : Bool
  rReadyCount : Nat
  rErroredResolved : Bool
  abortOperation : Option (QOp α)
  cancelOperation : Option (QOp α)
  deriving DecidableEq, Repr

variable {σ α : Type}

/-- Total queue size: each operation carries the size the strategy assigned it
(0 for control operations), so the total is the sum (spec section 3). -/
def queueSize (p : Pair σ α) : Nat := (p.queue.map QOp.size).sum

/-- Modelled from the spec: after an enqueue the readable side leaves `waiting` for
`readable` and its `ready` notification resolves (spec section 4.B). -/
def syncReadableAfterEnqueue (p : Pair σ α) : Pair σ α :=
  if p.rState = RState.waiting then
    { p with rState := RState.readable, rReadyCount := p.rReadyCount + 1 }
  else p

/-- Modelled from the spec: re-evaluate writable-side backpressure (spec
section 4.B): `writable` becomes `waiting` when backpressure is asserted, `waiting`
becomes `writable` (resolving the writable `ready`) when it is relieved; terminal
states are untouched. -/
def recomputeW (S : Strategy σ α) (p : Pair σ α) : Pair σ α :=
  let bp := S.shouldApplyBackpressure p.strat (queueSize p)
  match p.wState with
  | WState.writable => if bp then { p with wState := WState.waiting } else p
  | WState.waiting =>
      if bp then p
      else { p with wState := WState.writable, wReadyCount := p.wReadyCount + 1 }
  | _ => p

/-- Modelled from the spec: `createOperationStream(strategy)` (spec section 4.B):
empty queue, readable side `waiting`, writable side determined by the strategy's
initial backpressure answer on an empty queue. -/
def createOperationStream (S : Strategy σ α) (s0 : σ) : Pair σ α where
  strat := s0
  window := 0
  queue := []
  wState := if S.shouldApplyBackpressure s0 0 then WState.waiting else WState.writable
  rState := RState.waiting
  statuses := []
  wReadyCount := 0
  wCancelledResolved := false
  rReadyCount := 0
  rErroredResolved := false
  abortOperation := none
  cancelOperation := none

/-- Modelled from the spec: `write(arg)` (spec section 4.B): allowed while the
writable state is `writable` or `waiting`; enqueues a `data` op with a fresh
`waiting` status, marks the readable side readable, recomputes backpressure.
Returns the enqueued operation (whose `statusId` indexes the fresh status). -/
def write (S : Strategy σ α) (p : Pair σ α) (a : α) : Except String (QOp α × Pair σ α) :=
  if p.wState = WState.writable ∨ p.wState = WState.waiting then
    let op : QOp α := ⟨OpType.data, some a, S.size p.strat a, some p.statuses.length⟩
    let p1 : Pair σ α :=
      { p with queue := p.queue ++ [op],
               statuses := p.statuses ++ [⟨SState.waiting, none, false⟩] }
    Except.ok (op, recomputeW S (syncReadableAfterEnqueue p1))
  else Except.error "not writable"

/-- The close operation record enqueued by `close()` (size 0, sentinel status). -/
def closeQOp : QOp α := ⟨OpType.close, none, 0, none⟩

/-- Modelled from the spec: `close()` (spec section 4.B): allowed while `writable`
or `waiting`; enqueues a `close` op of size 0 and moves the writable side to
`closed` (resolving its `ready` if it was `waiting`, since the state leaves
`waiting`). -/
def close (p : Pair σ α) : Except String (Pair σ α) :=
  if p.wState = WState.writable ∨ p.wState = WState.waiting then
    Except.ok (syncReadableAfterEnqueue
      { p with queue := p.queue ++ [closeQOp],
               wState := WState.closed,
               wReadyCount :=
                 if p.wState = WState.waiting then p.wReadyCount + 1 else p.wReadyCount })
  else Except.error "not writable"

/-- The status ids of the `data` operations currently queued. -/
def queuedDataStatusIds (q : List (QOp α)) : List Nat :=
  (q.filter (fun op => op.type == OpType.data)).filterMap QOp.statusId

/-- Error every still-`waiting` status whose index (counted from `i`) is in `ids`
with reason `r`, resolving its `ready`. -/
def errorStatusesFrom (ids : List Nat) (r : α) : Nat → List (OpStatus α) → List (OpStatus α)
  | _, [] => []
  | i, st :: tl =>
    (if ids.contains i ∧ st.state = SState.waiting then ⟨SState.errored, some r, true⟩
     else st) :: errorStatusesFrom ids r (i + 1) tl

/-- Error every still-`waiting` status among `ids` with reason `r`, resolving its
`ready` (used by `abort` on dropped data ops and by reader-side `cancel`). -/
def errorStatuses (sts : List (OpStatus α)) (ids : List Nat) (r : α) : List (OpStatus α) :=
  errorStatusesFrom ids r 0 sts

/-- The abort operation record enqueued by `abort(reason)`. -/
def abortQOp (r : α) : QOp α := ⟨OpType.abort, some r, 0, none⟩

/-- Modelled from the spec: `abort(reason)` (spec section 4.B): allowed while the
writable state is not terminal; drops queued `data` ops (erroring their
still-waiting statuses with the reason), replaces the queue with a single `abort`
op, and moves the writable side to `aborted`. -/
def abort (p : Pair σ α) (r : α) : Except String (Pair σ α) :=
  if p.wState = WState.writable ∨ p.wState = WState.waiting then
    Except.ok (syncReadableAfterEnqueue
      { p with queue := [abortQOp r],
               statuses := errorStatuses p.statuses (queuedDataStatusIds p.queue) r,
               wState := WState.aborted,
               wReadyCount :=
                 if p.wState = WState.waiting then p.wReadyCount + 1 else p.wReadyCount })
  else Except.error "already terminal"

/-- Modelled from the spec: `read()` (spec section 4.B): requires state `readable`;
dequeues the head op; a terminal head moves the readable side to `drained`
(`close`) or `aborted` (`abort`, exposing the operation and resolving `errored`);
otherwise the side returns to `waiting` when the queue empties; writable
backpressure is recomputed. -/
def read (S : Strategy σ α) (p : Pair σ α) : Except String (QOp α × Pair σ α) :=
  if p.rState = RState.readable then
    match p.queue with
    | [] => Except.error "empty queue"
    | op :: rest =>
      let p1 : Pair σ α := { p with queue := rest }
      match op.type with
      | OpType.data =>
          let p2 := if rest.isEmpty then { p1 with rState := RState.waiting } else p1
          Except.ok (op, recomputeW S p2)
      | OpType.close => Except.ok (op, recomputeW S { p1 with rState := RState.drained })
      | OpType.abort =>
          Except.ok (op, recomputeW S
            { p1 with rState := RState.aborted, abortOperation := some op,
                      rErroredResolved := true })
      | OpType.cancel => Except.ok (op, recomputeW S p1)
  else Except.error "not readable"

/-- The state of status `sid`, if it exists. -/
def statusState (p : Pair σ α) (sid : Nat) : Option SState :=
  (p.statuses[sid]?).map OpStatus.state

/-- The result of status `sid`, if it exists. -/
def statusResult (p : Pair σ α) (sid : Nat) : Option (Option α) :=
  (p.statuses[sid]?).map OpStatus.result

/-- Replace status `sid` in the table. -/
def setStatus (p : Pair σ α) (sid : Nat) (st : OpStatus α) : Pair σ α :=
  { p with statuses := p.statuses.set sid st }

/-- Modelled from the spec: the `waiting → completed` transition of a status
(spec section 3): fails on a missing or already-settled status. -/
def completeStatus (p : Pair σ α) (sid : Nat) (r : Option α) : Except String (Pair σ α) :=
  match p.statuses[sid]? with
  | none => Except.error "no such status"
  | some st =>
    if st.state = SState.waiting then
      Except.ok (setStatus p sid ⟨SState.completed, r, true⟩)
    else Except.error "already settled"

/-- Modelled from the spec: the `waiting → errored` transition of a status. -/
def errorStatus (p : Pair σ α) (sid : Nat) (r : α) : Except String (Pair σ α) :=
  match p.statuses[sid]? with
  | none => Except.error "no such status"
  | some st =>
    if st.state = SState.waiting then
      Except.ok (setStatus p sid ⟨SState.errored, some r, true⟩)
    else Except.error "already settled"

/-- Modelled from the spec: `op.complete(result)` on a dequeued operation:
advances the linked status; on a control operation the status is the sentinel
non-observable one and the call is a no-op (spec section 3). -/
def completeOp (p : Pair σ α) (op : QOp α) (r : Option α) : Except String (Pair σ α) :=
  match op.statusId with
  | none => Except.ok p
  | some sid => completeStatus p sid r

/-- Modelled from the spec: `op.error(reason)` on a dequeued operation. -/
def errorOp (p : Pair σ α) (op : QOp α) (r : α) : Except String (Pair σ α) :=
  match op.statusId with
  | none => Except.ok p
  | some sid => errorStatus p sid r

/-- The cancel operation record exposed through `cancelOperation`. -/
def cancelQOp (r : α) : QOp α := ⟨OpType.cancel, some r, 0, none⟩

/-- Modelled from the spec: reader-side `cancel(reason)` (spec section 4.B):
allowed while `waiting` or `readable`; discards the queue, errors all
still-waiting data statuses with the reason, moves the readable side to
`cancelled` (exposing the cancel operation, resolving `errored`), marks the
writable side `cancelled` (resolving its `cancelled` notification) unless it is
already in an absorbing terminal state (spec section 5). -/
def cancel (p : Pair σ α) (r : α) : Except String (Pair σ α) :=
  if p.rState = RState.waiting ∨ p.rState = RState.readable then
    Except.ok
      { p with queue := [],
               statuses := errorStatuses p.statuses (queuedDataStatusIds p.queue) r,
               rState := RState.cancelled,
               cancelOperation := some (cancelQOp r),
               rErroredResolved := true,
               wState :=
                 if p.wState = WState.aborted ∨ p.wState = WState.cancelled then p.wState
                 else WState.cancelled,
               wCancelledResolved :=
                 if p.wState = WState.aborted ∨ p.wState = WState.cancelled then
                   p.wCancelledResolved
                 else true,
               wReadyCount :=
                 if p.wState = WState.waiting then p.wReadyCount + 1 else p.wReadyCount }
  else Except.error "already terminal"

/-- Modelled from the spec: the readable-side `window` setter (spec section 4.B and
the facade setter in the source): allowed while `waiting` or `readable`; stores the
window, forwards it to the strategy, and re-evaluates writable backpressure. -/
def setWindow (S : Strategy σ α) (p : Pair σ α) (v : Int) : Except String (Pair σ α) :=
  if p.rState = RState.waiting ∨ p.rState = RState.readable then
    Except.ok (recomputeW S { p with window := v, strat := S.onWindowUpdate p.strat v })
  else Except.error "already terminal"

/-- `space` delegates to the strategy on the current queue size (spec section 4.B). -/
def space (S : Strategy σ α) (p : Pair σ α) : Option Int :=
  S.space p.strat (queueSize p)

/-! ## Scenario S1: synchronous write, read and completion (test lines 63-92). -/

/-- Scenario S1 on the `ApplyBackpressureWhenNonEmptyStrategy` pair, collecting
every observable the test asserts: the fresh states, the states and the status
after `write("hello")`, the dequeued argument and the states after `read()`, and
the status after `op.complete("world")`. -/
def s1 : Except String
    ((WState × RState) × (WState × RState × Option SState) ×
      (Option String × RState × WState × Option SState) ×
      (Option SState × Option (Option String))) := do
  let S := ApplyBackpressureWhenNonEmptyStrategy String
  let p0 : Pair Unit String := createOperationStream S ()
  let o0 := (p0.wState, p0.rState)
  let (_, p1) ← write S p0 "hello"
  let o1 := (p1.wState, p1.rState, statusState p1 0)
  let (op, p2) ← read S p1
  let o2 := (op.argument, p2.rState, p2.wState, statusState p2 0)
  let p3 ← completeOp p2 op (some "world")
  let o3 := (statusState p3 0, statusResult p3 0)
  pure (o0, o1, o2, o3)

/-! ## Scenario S3: window arithmetic (test lines 138-173). -/

/-- Scenario S3 on the `AdjustableArrayBufferStrategy` pair: the write of a
10-byte buffer interleaved with window updates, collecting `(wos.state, wos.space)`
after each step the test asserts. -/
def s3 : Except String (List (WState × Option Int)) := do
  let S := AdjustableArrayBufferStrategy
  let p0 : Pair Int ArrayBuffer := createOperationStream S 0
  let o0 := (p0.wState, space S p0)
  let p1 ← setWindow S p0 5
  let o1 := (p1.wState, space S p1)
  let p2 ← setWindow S p1 0
  let (_, p3) ← write S p2 ⟨10⟩
  let o3 := (p3.wState, space S p3)
  let p4 ← setWindow S p3 10
  let o4 := (p4.wState, space S p4)
  let p5 ← setWindow S p4 15
  let o5 := (p5.wState, space S p5)
  let p6 ← setWindow S p5 20
  let o6 := (p6.wState, space S p6)
  let (_, p7) ← read S p6
  let o7 := (p7.wState, space S p7)
  pure [o0, o1, o3, o4, o5, o6, o7]

/-! ## Runs: sequences of legal surface operations on one pair. -/

/-- The surface operations of a pair, as an action language for run-level
invariants.  `complete k r` / `error k r` invoke `complete`/`error` on the `k`-th
operation previously returned by `read` (the reader is the only holder of
dequeued operations). -/
inductive Act (α : Type) where
  | write (a : α)
  | read
  | close
  | abort (r : α)
  | cancel (r : α)
  | complete (k : Nat) (r : Option α)
  | error (k : Nat) (r : α)
  | setWindow (v : Int)
  deriving DecidableEq, Repr

/-- A pair together with the ghost logs of a run: every operation ever enqueued
(`enqLog`), every operation returned by `read` (`readLog`), and every argument
accepted by `write` (`writeLog`). -/
structure RunState (σ α : Type) where
  p : Pair σ α
  enqLog : List (QOp α)
  readLog : List (QOp α)
  writeLog : List α
  deriving DecidableEq, Repr

/-- One action applied to a run state: an action whose precondition fails raises
a precondition failure to the caller and leaves the pair unchanged. -/
def step (S : Strategy σ α) (rs : RunState σ α) (a : Act α) : RunState σ α :=
  match a with
  | Act.write x =>
    match write S rs.p x with
    | Except.ok (op, p') => ⟨p', rs.enqLog ++ [op], rs.readLog, rs.writeLog ++ [x]⟩
    | Except.error _ => rs
  | Act.read =>
    match read S rs.p with
    | Except.ok (op, p') => ⟨p', rs.enqLog, rs.readLog ++ [op], rs.writeLog⟩
    | Except.error _ => rs
  | Act.close =>
    match close rs.p with
    | Except.ok p' => ⟨p', rs.enqLog ++ [closeQOp], rs.readLog, rs.writeLog⟩
    | Except.error _ => rs
  | Act.abort r =>
    match abort rs.p r with
    | Except.ok p' => ⟨p', rs.enqLog ++ [abortQOp r], rs.readLog, rs.writeLog⟩
    | Except.error _ => rs
  | Act.cancel r =>
    match cancel rs.p r with
    | Except.ok p' => ⟨p', rs.enqLog, rs.readLog, rs.writeLog⟩
    | Except.error _ => rs
  | Act.complete k r =>
    match rs.readLog[k]? with
    | some op =>
      match completeOp rs.p op r with
      | Except.ok p' => ⟨p', rs.enqLog, rs.readLog, rs.writeLog⟩
      | Except.error _ => rs
    | none => rs
  | Act.error k r =>
    match rs.readLog[k]? with
    | some op =>
      match errorOp rs.p op r with
      | Except.ok p' => ⟨p', rs.enqLog, rs.readLog, rs.writeLog⟩
      | Except.error _ => rs
    | none => rs
  | Act.setWindow v =>
    match setWindow S rs.p v with
    | Except.ok p' => ⟨p', rs.enqLog, rs.readLog, rs.writeLog⟩
    | Except.error _ => rs

/-- Apply a list of actions from a given run state. -/
def runFrom (S : Strategy σ α) (rs : RunState σ α) (acts : List (Act α)) : RunState σ α :=
  acts.foldl (step S) rs

/-- Apply a list of actions to a fresh pair. -/
def run (S : Strategy σ α) (s0 : σ) (acts : List (Act α)) : RunState σ α :=
  runFrom S ⟨createOperationStream S s0, [], [], []⟩ acts

/-- The arguments of the `data` operations of a list, in order. -/
def dataArgs (l : List (QOp α)) : List α :=
  (l.filter (fun op => op.type == OpType.data)).filterMap QOp.argument

/-- The FIFO run invariant: reads are dequeues of previous enqueues in order
(`readLog ++ queue` is a sublist of `enqLog`), the data ops ever enqueued are
exactly the accepted writes, and the accepted writes split into the data already
read, the data still queued, and data dropped by a terminal `abort`/`cancel`. -/
def Inv (rs : RunState σ α) : Prop :=
  (rs.readLog ++ rs.p.queue).Sublist rs.enqLog ∧
  dataArgs rs.enqLog = rs.writeLog ∧
  ∃ dropped, rs.writeLog = dataArgs rs.readLog ++ dataArgs rs.p.queue ++ dropped ∧
    (dropped = [] ∨ rs.p.wState = WState.aborted ∨ rs.p.wState = WState.cancelled)

/-! ## The pipe engine (`pipeOperationStreams`), modelled from the spec. -/

/-- Modelled from the spec (section 4.E): the state of one
`pipeOperationStreams(src, dst)` engine: the two pairs, the book of
(upstream operation, downstream status id) links, and whether a terminal
operation was forwarded (after which the engine stops forwarding but keeps
draining the book as downstream statuses resolve, as scenario S4 requires). -/
structure PipeState (σ₁ σ₂ α : Type) where
  src : Pair σ₁ α
  dst : Pair σ₂ α
  book : List (QOp α × Nat)
  done : Bool
  deriving DecidableEq, Repr

/-- A link whose downstream status has settled (left `waiting`). -/
def settledLink (dst : Pair σ₂ α) (l : QOp α × Nat) : Bool :=
  match dst.statuses[l.2]? with
  | some st => !(st.state == SState.waiting)
  | none => false

/-- Modelled from the spec (section 4.E): mirror a settled downstream status
onto the upstream operation: `op.complete(downstream.result)` when it completed,
`op.error(downstream.result)` when it errored. -/
def applyMirror (src : Pair σ₁ α) (op : QOp α) (st : OpStatus α) : Pair σ₁ α :=
  match st.state with
  | SState.completed =>
    match completeOp src op st.result with
    | Except.ok s => s
    | Except.error _ => src
  | SState.errored =>
    match st.result with
    | some r =>
      match errorOp src op r with
      | Except.ok s => s
      | Except.error _ => src
    | none => src
  | SState.waiting => src

/-- Modelled from the spec (section 4.E): the forwarding rules of one cooperative
step, taken when the book holds nothing to drain: when the source is readable the
head op is dispatched (data is written downstream if the destination accepts
writes, and the downstream status is linked to the upstream op; close closes the
destination, completes the upstream close op on its sentinel status and
terminates; abort aborts the destination and terminates); a cancelled
destination cancels the source and terminates; an aborted source aborts the
destination and terminates; otherwise the engine waits (identity). -/
def pipeForward (S₁ : Strategy σ₁ α) (S₂ : Strategy σ₂ α) (st : PipeState σ₁ σ₂ α) :
    PipeState σ₁ σ₂ α :=
  if st.done then st
  else if st.src.rState = RState.readable then
    match st.src.queue with
    | [] => st
    | op :: _ =>
      match op.type with
      | OpType.data =>
        if st.dst.wState = WState.writable ∨ st.dst.wState = WState.waiting then
          match read S₁ st.src with
          | Except.ok (rop, srcA) =>
            match rop.argument with
            | some a =>
              match write S₂ st.dst a with
              | Except.ok (dop, dstA) =>
                match dop.statusId with
                | some dsid =>
                    { st with src := srcA, dst := dstA, book := st.book ++ [(rop, dsid)] }
                | none => { st with src := srcA, dst := dstA }
              | Except.error _ => st
            | none => st
          | Except.error _ => st
        else st
      | OpType.close =>
        match read S₁ st.src with
        | Except.ok (rop, srcA) =>
          match close st.dst with
          | Except.ok dstA =>
            match completeOp srcA rop none with
            | Except.ok srcB => { st with src := srcB, dst := dstA, done := true }
            | Except.error _ => { st with src := srcA, dst := dstA, done := true }
          | Except.error _ => st
        | Except.error _ => st
      | OpType.abort =>
        match read S₁ st.src with
        | Except.ok (rop, srcA) =>
          match rop.argument with
          | some r =>
            match abort st.dst r with
            | Except.ok dstA => { st with src := srcA, dst := dstA, done := true }
            | Except.error _ => { st with src := srcA, done := true }
          | none => { st with src := srcA, done := true }
        | Except.error _ => st
      | OpType.cancel => st
  else if st.dst.wState = WState.cancelled then
    match st.dst.cancelOperation with
    | some cop =>
      match cop.argument with
      | some r =>
        match cancel st.src r with
        | Except.ok srcA => { st with src := srcA, done := true }
        | Except.error _ => { st with done := true }
      | none => { st with done := true }
    | none => { st with done := true }
  else if st.src.rState = RState.aborted then
    match st.src.abortOperation with
    | some aop =>
      match aop.argument with
      | some r =>
        match abort st.dst r with
        | Except.ok dstA => { st with dst := dstA, done := true }
        | Except.error _ => { st with done := true }
      | none => { st with done := true }
    | none => { st with done := true }
  else st

/-- Modelled from the spec (section 4.E): one cooperative step of the engine:
first drain the head link of the book when its downstream status settled
(mirroring the outcome onto the upstream op exactly once and dropping the link),
otherwise apply the forwarding rules. -/
def pipeStep (S₁ : Strategy σ₁ α) (S₂ : Strategy σ₂ α) (st : PipeState σ₁ σ₂ α) :
    PipeState σ₁ σ₂ α :=
  match st.book with
  | l :: bookRest =>
    if settledLink st.dst l then
      match st.dst.statuses[l.2]? with
      | some s => { st with src := applyMirror st.src l.1 s, book := bookRest }
      | none => { st with book := bookRest }
    else pipeForward S₁ S₂ st
  | [] => pipeForward S₁ S₂ st

/-- Iterate the pipe engine a given number of cooperative steps. -/
def pipeRun (S₁ : Strategy σ₁ α) (S₂ : Strategy σ₂ α) :
    Nat → PipeState σ₁ σ₂ α → PipeState σ₁ σ₂ α
  | 0, st => st
  | n + 1, st => pipeRun S₁ S₂ n (pipeStep S₁ S₂ st)

/-! ## Scenario S4: pipe with the string strategy (test lines 175-223). -/

/-- Scenario S4: `wos0.write("hello")`, `write("world")`, `close()`, pipe to a
second pair, `ros1.window = 20`, three cooperative forwarding steps, then the
downstream reader reads `"hello"` (completing it with `"hi"`), `"world"` and the
close op, and finally one more engine step mirrors the downstream completion onto
the upstream `helloStatus`. -/
def s4 : Except String
    (RState × RState × RState × (OpType × Option String) × RState ×
      (OpType × Option String) × OpType × Option SState ×
      (Option SState × Option (Option String))) := do
  let S := AdjustableStringStrategy
  let p0 : Pair Int String := createOperationStream S 0
  let (_, p0a) ← write S p0 "hello"
  let (_, p0b) ← write S p0a "world"
  let p0c ← close p0b
  let p1 : Pair Int String := createOperationStream S 0
  let st0 : PipeState Int Int String := ⟨p0c, p1, [], false⟩
  let o0 := st0.dst.rState
  let dst1 ← setWindow S st0.dst 20
  let st1 : PipeState Int Int String := { st0 with dst := dst1 }
  let o1 := st1.dst.rState
  let st2 := pipeRun S S 3 st1
  let o2 := st2.dst.rState
  let (op0, d0) ← read S st2.dst
  let o3 := (op0.type, op0.argument)
  let d1 ← completeOp d0 op0 (some "hi")
  let o4 := d1.rState
  let (op1, d2) ← read S d1
  let o5 := (op1.type, op1.argument)
  let (op2, d3) ← read S d2
  let o6 := op2.type
  let st3 : PipeState Int Int String := { st2 with dst := d3 }
  let o7 := statusState st3.src 0
  let st4 := pipeStep S S st3
  let o8 := (statusState st4.src 0, statusResult st4.src 0)
  pure (o0, o1, o2, o3, o4, o5, o6, o7, o8)

/-! ## The `ReadableOperationStream` facade, embedded from the source. -/

/-- The interface the facade consumes from its underlying source (the
operation-stream internals handed to the constructor): `read`, `cancel` and
`onWindowUpdate` over a source state `τ`. -/
structure SourceOps (τ α : Type) where
  read : τ → Except String (QOp α × τ)
  cancel : τ → α → τ
  onWindowUpdate : τ → Int → τ

/-- Modelled from the spec: `readableAcceptsReadAndCancel` is imported by the
facade from the missing operation-stream file; per spec section 4.B, `read` and
`cancel` require the readable state `waiting` or `readable`. -/
def readableAcceptsReadAndCancel (s : RState) : Bool :=
  s == RState.waiting || s == RState.readable

/-- `ReadableOperationStream` embedded from the source: `_source`, `_state`
(initially `waiting`), the readable and errored promises (modelled by resolution
counters/flags, with separate ones for the attached reader), `_abortOperation`,
`_window`, and `_reader` (the exclusive lock flag). -/
structure ROS (τ α : Type) where
  source : τ
  state : RState
  readableResolvedCount : Nat
  erroredResolved : Bool
  abortOperation : Option (QOp α)
  window : Int
  reader : Bool
  readerReadableResolvedCount : Nat
  readerErroredResolved : Bool
  deriving DecidableEq, Repr

/-- `get state` from the source: `_throwIfLocked()` then `_state`. -/
def ROS.stateGet (s : ROS τ α) : Except String RState :=
  if s.reader then Except.error "locked" else Except.ok s.state

/-- `get readable` from the source: `_throwIfLocked()` then the readable
promise (observed by its resolution count). -/
def ROS.readableGet (s : ROS τ α) : Except String Nat :=
  if s.reader then Except.error "locked" else Except.ok s.readableResolvedCount

/-- `_readIgnoringLock` from the source: precondition
`readableAcceptsReadAndCancel(_state)`, then delegate to the source. -/
def ROS.readIgnoringLock (ops : SourceOps τ α) (s : ROS τ α) :
    Except String (QOp α × ROS τ α) :=
  if readableAcceptsReadAndCancel s.state then
    match ops.read s.source with
    | Except.ok (op, t) => Except.ok (op, { s with source := t })
    | Except.error m => Except.error m
  else Except.error "already terminal"

/-- `read` from the source: `_throwIfLocked()` then `_readIgnoringLock()`. -/
def ROS.read (ops : SourceOps τ α) (s : ROS τ α) : Except String (QOp α × ROS τ α) :=
  if s.reader then Except.error "locked" else ROS.readIgnoringLock ops s

/-- `_cancelIgnoringLock` from the source: precondition
`readableAcceptsReadAndCancel(_state)`; delegates cancel to the source, resolves
the errored promise of the attached reader (or of the stream itself), and sets
`_state` to `cancelled`. -/
def ROS.cancelIgnoringLock (ops : SourceOps τ α) (s : ROS τ α) (reason : α) :
    Except String (ROS τ α) :=
  if readableAcceptsReadAndCancel s.state then
    Except.ok
      { s with source := ops.cancel s.source reason,
               readerErroredResolved := if s.reader then true else s.readerErroredResolved,
               erroredResolved := if s.reader then s.erroredResolved else true,
               state := RState.cancelled }
  else Except.error "already terminal"

/-- `cancel` from the source: `_throwIfLocked()` then `_cancelIgnoringLock`. -/
def ROS.cancel (ops : SourceOps τ α) (s : ROS τ α) (reason : α) : Except String (ROS τ α) :=
  if s.reader then Except.error "locked" else ROS.cancelIgnoringLock ops s reason

/-- `get errored` from the source: `_throwIfLocked()` then the errored promise
(observed by its resolution flag). -/
def ROS.erroredGet (s : ROS τ α) : Except String Bool :=
  if s.reader then Except.error "locked" else Except.ok s.erroredResolved

/-- `get _abortOperationIgnoringLock` from the source: requires state
`aborted`. -/
def ROS.abortOperationIgnoringLock (s : ROS τ α) : Except String (Option (QOp α)) :=
  if s.state ≠ RState.aborted then Except.error "not aborted"
  else Except.ok s.abortOperation

/-- `get abortOperation` from the source: `_throwIfLocked()` first. -/
def ROS.abortOperationGet (s : ROS τ α) : Except String (Option (QOp α)) :=
  if s.reader then Except.error "locked" else ROS.abortOperationIgnoringLock s

/-- `get window` from the source: `_throwIfLocked()` then `_window`. -/
def ROS.windowGet (s : ROS τ α) : Except String Int :=
  if s.reader then Except.error "locked" else Except.ok s.window

/-- `set _windowIgnoringLock` from the source: precondition
`readableAcceptsReadAndCancel(_state)`; stores the window and forwards it to the
source. -/
def ROS.windowSetIgnoringLock (ops : SourceOps τ α) (s : ROS τ α) (v : Int) :
    Except String (ROS τ α) :=
  if readableAcceptsReadAndCancel s.state then
    Except.ok { s with window := v, source := ops.onWindowUpdate s.source v }
  else Except.error "already terminal"

/-- `set window` from the source: `_throwIfLocked()` first. -/
def ROS.windowSet (ops : SourceOps τ α) (s : ROS τ α) (v : Int) : Except String (ROS τ α) :=
  if s.reader then Except.error "locked" else ROS.windowSetIgnoringLock ops s v

/-- `getReader` from the source: `_throwIfLocked()` then attach the exclusive
reader. -/
def ROS.getReader (s : ROS τ α) : Except String (ROS τ α) :=
  if s.reader then Except.error "locked" else Except.ok { s with reader := true }

/-- `_markWaiting` from the source: re-arm the readable promise and set
`_state` to `waiting`. -/
def ROS.markWaiting (s : ROS τ α) : ROS τ α :=
  { s with state := RState.waiting }

/-- `_markReadable` from the source: only from `waiting`; resolves the readable
promise of the attached reader, or of the stream itself. -/
def ROS.markReadable (s : ROS τ α) : ROS τ α :=
  if s.state ≠ RState.waiting then s
  else if s.reader then
    { s with readerReadableResolvedCount := s.readerReadableResolvedCount + 1,
             state := RState.readable }
  else
    { s with readableResolvedCount := s.readableResolvedCount + 1,
             state := RState.readable }

/-- `_markDrained` from the source. -/
def ROS.markDrained (s : ROS τ α) : ROS τ α :=
  { s with state := RState.drained }

/-- `_markAborted` embedded from the source, including its reference to
`this._writer`: when a reader is attached the source runs
`this._writer._resolveErroredPromise()`, but `ReadableOperationStream` has no
`_writer` field (only `_reader`), so in JS `this._writer` is `undefined` and the
member call throws a `TypeError` before the state is set to `aborted` or the
operation recorded. -/
def ROS.markAborted (s : ROS τ α) (operation : QOp α) : Except String (ROS τ α) :=
  if s.reader then
    Except.error "TypeError: this._writer is undefined"
  else
    Except.ok { s with erroredResolved := true, state := RState.aborted,
                       abortOperation := some operation }

/-- A locked facade stream (a reader is attached), used as concrete input. -/
def rosLockedFix : ROS Unit String := ⟨(), RState.waiting, 0, false, none, 0, true, 0, false⟩

/-- An unlocked facade stream in state `waiting`, used as concrete input. -/
def rosUnlockedFix : ROS Unit String := ⟨(), RState.waiting, 0, false, none, 0, false, 0, false⟩

/-- A trivial source-operations record for the facade fixtures. -/
def sourceOpsFix : SourceOps Unit String where
  read := fun _ => Except.error "empty"
  cancel := fun t _ => t
  onWindowUpdate := fun t _ => t

/-! ## The high-level `ReadableStream`, embedded from
`reference-implementation/lib/readable-stream.js`. -/

/-- Controller state of the high-level ReadableStream. -/
inductive CState where
  | readable | closed | errored
  deriving DecidableEq, Repr

/-- The attached exclusive reader: its pending read-request ids and whether its
`closed` promise has resolved. -/
structure RSReader where
  readRequests : List Nat
  closedResolved : Bool
  deriving DecidableEq, Repr

/-- An iterator result `{value, done}` delivered to a read request. -/
inductive IterResult (α : Type) where
  | value (a : α)
  | done
  deriving DecidableEq, Repr

/-- The high-level ReadableStream with its controller, embedded from the source:
`_reader`, `_storedError`, the controller's `_state` and `_queue`. -/
structure RStream (α ε : Type) where
  reader : Option RSReader
  controllerState : CState
  storedError : Option ε
  queue : List α
  deriving DecidableEq, Repr

/-- `FinishClosingReadableStream(stream)` from the source: with no reader it
returns immediately; with a reader it resolves every pending read request with a
done iterator result, empties the request list and resolves the reader's closed
promise.  Returns the stream and the settled `(requestId, result)` pairs. -/
def FinishClosingReadableStream (s : RStream α ε) :
    RStream α ε × List (Nat × IterResult α) :=
  match s.reader with
  | none => (s, [])
  | some rd =>
    ({ s with reader := some ⟨[], true⟩ },
      rd.readRequests.map (fun i => (i, IterResult.done)))

/-- The observable outcome of the promise `ReadableStream.cancel` returns. -/
inductive CancelPromise (ε : Type) where
  | rejectedTypeError
  | fulfilledUndefined
  | rejectedStored (e : Option ε)
  | onSourceCancel
  deriving DecidableEq, Repr

/-- What one call to `ReadableStream.cancel` does: the stream afterwards, the
returned promise, the reason handed to the underlying source's `cancel` (when it
was invoked), and the read requests `FinishClosingReadableStream` settled. -/
structure CancelResult (α ε : Type) where
  stream : RStream α ε
  promise : CancelPromise ε
  sourceCancelReason : Option ε
  settledReads : List (Nat × IterResult α)
  deriving DecidableEq, Repr

/-- `ReadableStream.cancel(reason)` from the source: rejected with a TypeError
on a locked stream; fulfilled with undefined, without touching the source, when
the controller state is already `closed`; rejected with `_storedError` when it
is `errored`; otherwise the controller state becomes `closed`,
`FinishClosingReadableStream` runs, and the controller's `_Cancel` empties the
queue and invokes the underlying source's `cancel` with the reason (the returned
promise is that call's result mapped to undefined). -/
def RStream.cancel (s : RStream α ε) (reason : ε) : CancelResult α ε :=
  if s.reader.isSome then
    ⟨s, CancelPromise.rejectedTypeError, none, []⟩
  else if s.controllerState = CState.closed then
    ⟨s, CancelPromise.fulfilledUndefined, none, []⟩
  else if s.controllerState = CState.errored then
    ⟨s, CancelPromise.rejectedStored s.storedError, none, []⟩
  else
    let s1 : RStream α ε := { s with controllerState := CState.closed }
    let fin := FinishClosingReadableStream s1
    ⟨{ fin.1 with queue := [] }, CancelPromise.onSourceCancel, some reason, fin.2⟩

/-- A concrete unlocked readable ReadableStream, used as concrete input. -/
def rstreamFix : RStream String String := ⟨none, CState.readable, none, ["chunk"]⟩

/-- A concrete one-status pair used to witness hypothesis-bearing theorems. -/
def pairFix : Pair Unit String :=
  ⟨(), 0, [], WState.writable, RState.waiting, [⟨SState.waiting, none, false⟩],
    0, false, 0, false, none, none⟩

/-- The dequeued data operation linked to status 0 of `pairFix`. -/
def opFix : QOp String := ⟨OpType.data, some "hello", 1, some 0⟩

/-- A concrete adjustable-strategy pair (window 5 cached, empty queue) used to
witness hypothesis-bearing theorems. -/
def pairFix9 : Pair Int ArrayBuffer :=
  ⟨5, 5, [], WState.writable, RState.waiting, [], 1, false, 0, false, none, none⟩

/-! ## Theorems

First the frame and characterisation lemmas shared by several claims, then the
claim theorems themselves. -/

theorem sync_queue (p : Pair σ α) : (syncReadableAfterEnqueue p).queue = p.queue := by
  unfold syncReadableAfterEnqueue; split <;> rfl

theorem sync_wState (p : Pair σ α) : (syncReadableAfterEnqueue p).wState = p.wState := by
  unfold syncReadableAfterEnqueue; split <;> rfl

theorem sync_statuses (p : Pair σ α) : (syncReadableAfterEnqueue p).statuses = p.statuses := by
  unfold syncReadableAfterEnqueue; split <;> rfl

theorem recomputeW_queue (S : Strategy σ α) (p : Pair σ α) :
    (recomputeW S p).queue = p.queue := by
  unfold recomputeW; cases p.wState <;> dsimp only <;> split <;> rfl

theorem recomputeW_statuses (S : Strategy σ α) (p : Pair σ α) :
    (recomputeW S p).statuses = p.statuses := by
  unfold recomputeW; cases p.wState <;> dsimp only <;> split <;> rfl

theorem recomputeW_rState (S : Strategy σ α) (p : Pair σ α) :
    (recomputeW S p).rState = p.rState := by
  unfold recomputeW; cases p.wState <;> dsimp only <;> split <;> rfl

theorem recomputeW_wState_aborted (S : Strategy σ α) (p : Pair σ α)
    (h : p.wState = WState.aborted) : (recomputeW S p).wState = WState.aborted := by
  simp [recomputeW, h]

theorem recomputeW_wState_cancelled (S : Strategy σ α) (p : Pair σ α)
    (h : p.wState = WState.cancelled) : (recomputeW S p).wState = WState.cancelled := by
  simp [recomputeW, h]

theorem dataArgs_append (l₁ l₂ : List (QOp α)) :
    dataArgs (l₁ ++ l₂) = dataArgs l₁ ++ dataArgs l₂ := by
  simp [dataArgs, List.filter_append, List.filterMap_append]

theorem dataArgs_cons (op : QOp α) (l : List (QOp α)) :
    dataArgs (op :: l) = dataArgs [op] ++ dataArgs l := by
  have h := dataArgs_append [op] l
  simpa using h

theorem dataArgs_closeQOp : dataArgs ([closeQOp] : List (QOp α)) = [] := rfl

theorem dataArgs_abortQOp (r : α) : dataArgs [abortQOp r] = [] := rfl

theorem dataArgs_nil : dataArgs ([] : List (QOp α)) = [] := rfl

theorem dataArgs_dataOp (a : α) (sz : Nat) (sid : Option Nat) :
    dataArgs [⟨OpType.data, some a, sz, sid⟩] = [a] := rfl

theorem setStatus_queue (p : Pair σ α) (sid : Nat) (st : OpStatus α) :
    (setStatus p sid st).queue = p.queue := rfl

theorem setStatus_wState (p : Pair σ α) (sid : Nat) (st : OpStatus α) :
    (setStatus p sid st).wState = p.wState := rfl

theorem write_ok {S : Strategy σ α} {p : Pair σ α} {a : α} {op : QOp α} {p' : Pair σ α}
    (h : write S p a = Except.ok (op, p')) :
    (p.wState = WState.writable ∨ p.wState = WState.waiting) ∧
    op = ⟨OpType.data, some a, S.size p.strat a, some p.statuses.length⟩ ∧
    p' = recomputeW S (syncReadableAfterEnqueue
      { p with queue := p.queue ++ [op],
               statuses := p.statuses ++ [⟨SState.waiting, none, false⟩] }) := by
  unfold write at h
  split at h
  · next hpre =>
      simp only [Except.ok.injEq, Prod.mk.injEq] at h
      obtain ⟨hop, hp⟩ := h
      subst hop
      exact ⟨hpre, rfl, hp.symm⟩
  · exact absurd h (by simp)

theorem close_ok {p : Pair σ α} {p' : Pair σ α}
    (h : close p = Except.ok p') :
    (p.wState = WState.writable ∨ p.wState = WState.waiting) ∧
    p' = syncReadableAfterEnqueue
      { p with queue := p.queue ++ [closeQOp],
               wState := WState.closed,
               wReadyCount :=
                 if p.wState = WState.waiting then p.wReadyCount + 1 else p.wReadyCount } := by
  unfold close at h
  split at h
  · next hpre =>
      simp only [Except.ok.injEq] at h
      exact ⟨hpre, h.symm⟩
  · exact absurd h (by simp)

theorem abort_ok {p : Pair σ α} {r : α} {p' : Pair σ α}
    (h : abort p r = Except.ok p') :
    (p.wState = WState.writable ∨ p.wState = WState.waiting) ∧
    p' = syncReadableAfterEnqueue
      { p with queue := [abortQOp r],
               statuses := errorStatuses p.statuses (queuedDataStatusIds p.queue) r,
               wState := WState.aborted,
               wReadyCount :=
                 if p.wState = WState.waiting then p.wReadyCount + 1 else p.wReadyCount } := by
  unfold abort at h
  split at h
  · next hpre =>
      simp only [Except.ok.injEq] at h
      exact ⟨hpre, h.symm⟩
  · exact absurd h (by simp)

theorem read_ok {S : Strategy σ α} {p : Pair σ α} {op : QOp α} {p' : Pair σ α}
    (h : read S p = Except.ok (op, p')) :
    p.rState = RState.readable ∧
    ∃ rest, p.queue = op :: rest ∧ p'.queue = rest ∧ p'.statuses = p.statuses ∧
      (p.wState = WState.aborted → p'.wState = WState.aborted) ∧
      (p.wState = WState.cancelled → p'.wState = WState.cancelled) := by
  unfold read at h
  split at h
  · next hr =>
      refine ⟨hr, ?_⟩
      split at h
      · exact absurd h (by simp)
      · next hd rest heq =>
          split at h <;>
            simp only [Except.ok.injEq, Prod.mk.injEq] at h <;>
            obtain ⟨hop, hp⟩ := h <;> subst hop <;> subst hp <;>
            refine ⟨rest, heq, ?_, ?_, ?_, ?_⟩
          · rw [recomputeW_queue]; split <;> rfl
          · rw [recomputeW_statuses]; split <;> rfl
          · intro hw
            apply recomputeW_wState_aborted
            split <;> exact hw
          · intro hw
            apply recomputeW_wState_cancelled
            split <;> exact hw
          · rw [recomputeW_queue]
          · rw [recomputeW_statuses]
          · exact fun hw => recomputeW_wState_aborted _ _ hw
          · exact fun hw => recomputeW_wState_cancelled _ _ hw
          · rw [recomputeW_queue]
          · rw [recomputeW_statuses]
          · exact fun hw => recomputeW_wState_aborted _ _ hw
          · exact fun hw => recomputeW_wState_cancelled _ _ hw
          · rw [recomputeW_queue]
          · rw [recomputeW_statuses]
          · exact fun hw => recomputeW_wState_aborted _ _ hw
          · exact fun hw => recomputeW_wState_cancelled _ _ hw
  · exact absurd h (by simp)

theorem cancel_ok {p : Pair σ α} {r : α} {p' : Pair σ α}
    (h : cancel p r = Except.ok p') :
    (p.rState = RState.waiting ∨ p.rState = RState.readable) ∧
    p'.queue = [] ∧
    (p'.wState = WState.aborted ∨ p'.wState = WState.cancelled) ∧
    p'.statuses = errorStatuses p.statuses (queuedDataStatusIds p.queue) r ∧
    (p.wState = WState.aborted → p'.wState = WState.aborted) := by
  unfold cancel at h
  split at h
  · next hpre =>
      simp only [Except.ok.injEq] at h
      subst h
      refine ⟨hpre, rfl, ?_, rfl, ?_⟩
      · dsimp only
        split
        · next hw => rcases hw with hw | hw <;> rw [hw] <;> simp
        · right; rfl
      · intro hw
        dsimp only
        rw [if_pos (Or.inl hw)]
        exact hw
  · exact absurd h (by simp)

theorem setWindow_ok {S : Strategy σ α} {p : Pair σ α} {v : Int} {p' : Pair σ α}
    (h : setWindow S p v = Except.ok p') :
    (p.rState = RState.waiting ∨ p.rState = RState.readable) ∧
    p' = recomputeW S { p with window := v, strat := S.onWindowUpdate p.strat v } := by
  unfold setWindow at h
  split at h
  · next hpre =>
      simp only [Except.ok.injEq] at h
      exact ⟨hpre, h.symm⟩
  · exact absurd h (by simp)

theorem completeOp_ok {p : Pair σ α} {op : QOp α} {r : Option α} {p' : Pair σ α}
    (h : completeOp p op r = Except.ok p') :
    p' = p ∨ ∃ sid st, p' = setStatus p sid st := by
  unfold completeOp at h
  split at h
  · simp only [Except.ok.injEq] at h; exact Or.inl h.symm
  · next sid heq =>
      unfold completeStatus at h
      split at h
      · exact absurd h (by simp)
      · split at h
        · simp only [Except.ok.injEq] at h
          exact Or.inr ⟨sid, _, h.symm⟩
        · exact absurd h (by simp)

theorem errorOp_ok {p : Pair σ α} {op : QOp α} {r : α} {p' : Pair σ α}
    (h : errorOp p op r = Except.ok p') :
    p' = p ∨ ∃ sid st, p' = setStatus p sid st := by
  unfold errorOp at h
  split at h
  · simp only [Except.ok.injEq] at h; exact Or.inl h.symm
  · next sid heq =>
      unfold errorStatus at h
      split at h
      · exact absurd h (by simp)
      · split at h
        · simp only [Except.ok.injEq] at h
          exact Or.inr ⟨sid, _, h.symm⟩
        · exact absurd h (by simp)

theorem step_Inv (S : Strategy σ α) (rs : RunState σ α) (a : Act α) (h : Inv rs) :
    Inv (step S rs a) := by
  obtain ⟨h1, h2, dropped, h3, h4⟩ := h
  have hRead : rs.readLog.Sublist rs.enqLog :=
    (List.sublist_append_left rs.readLog rs.p.queue).trans h1
  cases a with
  | write x =>
    dsimp only [step]
    split
    · next op p' heq =>
        obtain ⟨hpre, hop, hp⟩ := write_ok heq
        have hdrop : dropped = [] := by
          rcases h4 with h4 | h4 | h4
          · exact h4
          · rcases hpre with hw | hw <;> rw [hw] at h4 <;> simp at h4
          · rcases hpre with hw | hw <;> rw [hw] at h4 <;> simp at h4
        subst hdrop
        refine ⟨?_, ?_, [], ?_, Or.inl rfl⟩
        · rw [hp, recomputeW_queue, sync_queue]
          dsimp only
          rw [← List.append_assoc]
          exact h1.append (List.Sublist.refl _)
        · rw [dataArgs_append, h2, hop, dataArgs_dataOp]
        · rw [hp, recomputeW_queue, sync_queue]
          dsimp only
          rw [dataArgs_append, hop, dataArgs_dataOp]
          simp only [List.append_nil] at h3
          simp [h3, List.append_assoc]
    · exact ⟨h1, h2, dropped, h3, h4⟩
  | read =>
    dsimp only [step]
    split
    · next op p' heq =>
        obtain ⟨hr, rest, hq, hq', hst, hab, hcanc⟩ := read_ok heq
        refine ⟨?_, h2, dropped, ?_, ?_⟩
        · rw [hq', List.append_assoc]
          rw [hq] at h1
          simpa using h1
        · rw [hq, dataArgs_cons] at h3
          rw [hq', dataArgs_append]
          simp only [List.append_assoc] at h3 ⊢
          exact h3
        · rcases h4 with h4 | h4 | h4
          · exact Or.inl h4
          · exact Or.inr (Or.inl (hab h4))
          · exact Or.inr (Or.inr (hcanc h4))
    · exact ⟨h1, h2, dropped, h3, h4⟩
  | close =>
    dsimp only [step]
    split
    · next p' heq =>
        obtain ⟨hpre, hp⟩ := close_ok heq
        have hdrop : dropped = [] := by
          rcases h4 with h4 | h4 | h4
          · exact h4
          · rcases hpre with hw | hw <;> rw [hw] at h4 <;> simp at h4
          · rcases hpre with hw | hw <;> rw [hw] at h4 <;> simp at h4
        subst hdrop
        refine ⟨?_, ?_, [], ?_, Or.inl rfl⟩
        · rw [hp, sync_queue]
          dsimp only
          rw [← List.append_assoc]
          exact h1.append (List.Sublist.refl _)
        · rw [dataArgs_append, h2, dataArgs_closeQOp, List.append_nil]
        · rw [hp, sync_queue]
          dsimp only
          rw [dataArgs_append, dataArgs_closeQOp]
          simpa using h3
    · exact ⟨h1, h2, dropped, h3, h4⟩
  | abort r =>
    dsimp only [step]
    split
    · next p' heq =>
        obtain ⟨hpre, hp⟩ := abort_ok heq
        refine ⟨?_, ?_, dataArgs rs.p.queue ++ dropped, ?_, ?_⟩
        · rw [hp, sync_queue]
          dsimp only
          exact hRead.append (List.Sublist.refl _)
        · rw [dataArgs_append, h2, dataArgs_abortQOp, List.append_nil]
        · rw [hp, sync_queue]
          dsimp only
          rw [dataArgs_abortQOp]
          simp only [List.nil_append, List.append_assoc] at h3 ⊢
          exact h3
        · refine Or.inr (Or.inl ?_)
          rw [hp, sync_wState]
    · exact ⟨h1, h2, dropped, h3, h4⟩
  | cancel r =>
    dsimp only [step]
    split
    · next p' heq =>
        obtain ⟨hpre, hq', hw, -, -⟩ := cancel_ok heq
        refine ⟨?_, h2, dataArgs rs.p.queue ++ dropped, ?_, ?_⟩
        · rw [hq']
          simpa using hRead
        · rw [hq', dataArgs_nil]
          simp only [List.nil_append, List.append_assoc] at h3 ⊢
          exact h3
        · rcases hw with hw | hw
          · exact Or.inr (Or.inl hw)
          · exact Or.inr (Or.inr hw)
    · exact ⟨h1, h2, dropped, h3, h4⟩
  | complete k r =>
    dsimp only [step]
    split
    · next op heq =>
        split
        · next p' heq₂ =>
            rcases completeOp_ok heq₂ with rfl | ⟨sid, st, rfl⟩
            · exact ⟨h1, h2, dropped, h3, h4⟩
            · exact ⟨h1, h2, dropped, h3, h4⟩
        · exact ⟨h1, h2, dropped, h3, h4⟩
    · exact ⟨h1, h2, dropped, h3, h4⟩
  | error k r =>
    dsimp only [step]
    split
    · next op heq =>
        split
        · next p' heq₂ =>
            rcases errorOp_ok heq₂ with rfl | ⟨sid, st, rfl⟩
            · exact ⟨h1, h2, dropped, h3, h4⟩
            · exact ⟨h1, h2, dropped, h3, h4⟩
        · exact ⟨h1, h2, dropped, h3, h4⟩
    · exact ⟨h1, h2, dropped, h3, h4⟩
  | setWindow v =>
    dsimp only [step]
    split
    · next p' heq =>
        obtain ⟨hpre, hp⟩ := setWindow_ok heq
        refine ⟨?_, h2, dropped, ?_, ?_⟩
        · rw [hp, recomputeW_queue]
          exact h1
        · rw [hp, recomputeW_queue]
          exact h3
        · rcases h4 with h4 | h4 | h4
          · exact Or.inl h4
          · exact Or.inr (Or.inl (by rw [hp]; exact recomputeW_wState_aborted _ _ h4))
          · exact Or.inr (Or.inr (by rw [hp]; exact recomputeW_wState_cancelled _ _ h4))
    · exact ⟨h1, h2, dropped, h3, h4⟩

theorem runFrom_Inv (S : Strategy σ α) (acts : List (Act α)) (rs : RunState σ α)
    (h : Inv rs) : Inv (runFrom S rs acts) := by
  induction acts generalizing rs with
  | nil => exact h
  | cons a rest ih => exact ih _ (step_Inv S rs a h)

theorem run_Inv (S : Strategy σ α) (s0 : σ) (acts : List (Act α)) :
    Inv (run S s0 acts) := by
  apply runFrom_Inv
  exact ⟨by simp [createOperationStream], rfl, [], rfl, Or.inl rfl⟩

/-- C2: FIFO delivery: in every run of surface operations on one pair, the
operations returned by `read` are the enqueued operations in enqueue order with
no reordering of `data`/`close`/`abort` (`readLog` is a sublist of `enqLog`); the
`data` arguments of the enqueue log are exactly the arguments accepted by
`write`; the data arguments observed by `read` form a prefix of the written
arguments; and once every written datum has been dequeued (no data left queued
and no `abort`/`cancel` dropped the queue) the sequence observed from
`read().argument`, restricted to data ops, equals the sequence passed to
`write`. -/
theorem claim_C2 (S : Strategy σ α) (s0 : σ) (acts : List (Act α)) :
    (run S s0 acts).readLog.Sublist (run S s0 acts).enqLog ∧
    (∃ rest, dataArgs (run S s0 acts).enqLog = dataArgs (run S s0 acts).readLog ++ rest) ∧
    dataArgs (run S s0 acts).enqLog = (run S s0 acts).writeLog ∧
    ((run S s0 acts).p.wState ≠ WState.aborted → (run S s0 acts).p.wState ≠ WState.cancelled →
      dataArgs (run S s0 acts).p.queue = [] →
      dataArgs (run S s0 acts).readLog = (run S s0 acts).writeLog) := by
  obtain ⟨h1, h2, dropped, h3, h4⟩ := run_Inv S s0 acts
  refine ⟨(List.sublist_append_left _ _).trans h1, ?_, h2, ?_⟩
  · refine ⟨dataArgs (run S s0 acts).p.queue ++ dropped, ?_⟩
    rw [h2, h3]
    simp [List.append_assoc]
  · intro hna hnc hqe
    have hdrop : dropped = [] := by
      rcases h4 with h | h | h
      · exact h
      · exact absurd h hna
      · exact absurd h hnc
    rw [h3, hqe, hdrop]
    simp

/-- C1: Synchronous roundtrip with the ApplyBackpressureWhenNonEmpty strategy:
on a fresh pair the writable state is `writable` and the readable state is
`waiting`; after `write("hello")` the writable state is `waiting`, the readable
state is `readable`, and the returned status has state `waiting`; after `read()`
the dequeued op's argument is `"hello"`, the readable state returns to `waiting`,
the writable state returns to `writable`, and the status is still `waiting`;
after `op.complete("world")` the status has state `completed` and result
`"world"`. -/
theorem claim_C1 : s1 = Except.ok
    ((WState.writable, RState.waiting),
      (WState.waiting, RState.readable, some SState.waiting),
      (some "hello", RState.waiting, WState.writable, some SState.waiting),
      (some SState.completed, some (some "world"))) := by
  rfl

/-- C4: Adjustable strategy arithmetic: `shouldApplyBackpressure(n)` is true iff
`n ≥ window` and `space(n) = max(0, window − n)`; and in the S3 scenario with byte
buffers the pair passes through exactly the `(state, space)` observations the
claim lists: fresh pair `waiting`/0, window 5 gives `writable`/5, a 10-byte write
under window 0 gives `waiting`/0, window 10 still `waiting`/0, window 15
`writable`/5, window 20 `writable`/10, and after one `read()` space is 20. -/
theorem claim_C4 :
    (∀ (w : Int) (n : Nat),
        (AdjustableArrayBufferStrategy.shouldApplyBackpressure w n = true ↔ (n : Int) ≥ w) ∧
        AdjustableArrayBufferStrategy.space w n = some (max 0 (w - (n : Int)))) ∧
    s3 = Except.ok
      [(WState.waiting, some 0),
        (WState.writable, some 5),
        (WState.waiting, some 0),
        (WState.waiting, some 0),
        (WState.writable, some 5),
        (WState.writable, some 10),
        (WState.writable, some 20)] := by
  refine ⟨fun w n => ⟨?_, rfl⟩, rfl⟩
  simp [AdjustableArrayBufferStrategy]


theorem errorStatusesFrom_getElem? (ids : List Nat) (r : α) (i n : Nat)
    (sts : List (OpStatus α)) :
    (errorStatusesFrom ids r i sts)[n]? =
      (sts[n]?).map (fun st =>
        if ids.contains (i + n) ∧ st.state = SState.waiting then ⟨SState.errored, some r, true⟩
        else st) := by
  induction sts generalizing i n with
  | nil => simp [errorStatusesFrom]
  | cons st tl ih =>
    cases n with
    | zero => simp [errorStatusesFrom]
    | succ m =>
        rw [errorStatusesFrom]
        simp only [List.getElem?_cons_succ]
        rw [ih (i + 1) m]
        have harith : i + 1 + m = i + (m + 1) := by omega
        rw [harith]

theorem errorStatuses_getElem?_of_not_mem (sts : List (OpStatus α)) (ids : List Nat)
    (r : α) (sid : Nat) (h : ¬ sid ∈ ids) :
    (errorStatuses sts ids r)[sid]? = sts[sid]? := by
  rw [errorStatuses, errorStatusesFrom_getElem?]
  have hc : ids.contains (0 + sid) = false := by simp [h]
  cases hs : sts[sid]? with
  | none => rfl
  | some st => simp [h]

/-- C3: Status linkage with at-most-once completion: a `write` returns an
operation linked to a fresh status in state `waiting`; on a dequeued data op
`complete(result)` succeeds exactly while the status is `waiting` and moves it to
`completed` with the result, `error(reason)` moves it to `errored` with the
reason; once settled, a second invocation of either raises a precondition
failure; and no other pair operation touches the status of a dequeued op
(`read`/`close`/`setWindow` leave the status table unchanged, `abort`/`cancel`
touch only statuses still referenced by the queue). -/
theorem claim_C3 (S : Strategy σ α) (p : Pair σ α) (a r e : α) (ro : Option α)
    (op : QOp α) (sid : Nat) (v : Int)
    (hop : op.statusId = some sid) (hsid : sid < p.statuses.length) :
    (∀ wop p', write S p a = Except.ok (wop, p') →
        wop.statusId = some p.statuses.length ∧
        statusState p' p.statuses.length = some SState.waiting) ∧
    (statusState p sid = some SState.waiting →
        completeOp p op ro = Except.ok (setStatus p sid ⟨SState.completed, ro, true⟩)) ∧
    (statusState p sid = some SState.waiting →
        errorOp p op r = Except.ok (setStatus p sid ⟨SState.errored, some r, true⟩)) ∧
    (statusState p sid ≠ some SState.waiting →
        (∃ msg, completeOp p op ro = Except.error msg) ∧
        (∃ msg, errorOp p op r = Except.error msg)) ∧
    (∀ st : OpStatus α, statusState (setStatus p sid st) sid = some st.state ∧
        statusResult (setStatus p sid st) sid = some st.result) ∧
    (∀ x p', read S p = Except.ok (x, p') → p'.statuses = p.statuses) ∧
    (∀ p', close p = Except.ok p' → p'.statuses = p.statuses) ∧
    (∀ p', setWindow S p v = Except.ok p' → p'.statuses = p.statuses) ∧
    (¬ sid ∈ queuedDataStatusIds p.queue →
        (∀ p', abort p e = Except.ok p' → p'.statuses[sid]? = p.statuses[sid]?) ∧
        (∀ p', cancel p e = Except.ok p' → p'.statuses[sid]? = p.statuses[sid]?)) := by
  refine ⟨?_, ?_, ?_, ?_, ?_, ?_, ?_, ?_, ?_⟩
  · intro wop p' hw
    obtain ⟨hpre, hwop, hp⟩ := write_ok hw
    constructor
    · rw [hwop]
    · rw [hp, statusState, recomputeW_statuses, sync_statuses]
      dsimp only
      rw [List.getElem?_concat_length]
      rfl
  · intro hw
    obtain ⟨st, hst, hstate⟩ := Option.map_eq_some'.mp hw
    simp [completeOp, hop, completeStatus, hst, hstate]
  · intro hw
    obtain ⟨st, hst, hstate⟩ := Option.map_eq_some'.mp hw
    simp [errorOp, hop, errorStatus, hst, hstate]
  · intro hw
    obtain ⟨st, hst⟩ : ∃ st, p.statuses[sid]? = some st :=
      ⟨_, List.getElem?_eq_getElem hsid⟩
    have hstate : ¬ st.state = SState.waiting := by
      intro hc
      exact hw (by simp [statusState, hst, hc])
    constructor
    · exact ⟨"already settled", by simp [completeOp, hop, completeStatus, hst, hstate]⟩
    · exact ⟨"already settled", by simp [errorOp, hop, errorStatus, hst, hstate]⟩
  · intro st
    constructor
    · simp [statusState, setStatus, List.getElem?_set_self, hsid]
    · simp [statusResult, setStatus, List.getElem?_set_self, hsid]
  · intro x p' h
    obtain ⟨-, rest, -, -, hst, -, -⟩ := read_ok h
    exact hst
  · intro p' h
    obtain ⟨-, hp⟩ := close_ok h
    rw [hp, sync_statuses]
  · intro p' h
    obtain ⟨-, hp⟩ := setWindow_ok h
    rw [hp, recomputeW_statuses]
  · intro hmem
    constructor
    · intro p' h
      obtain ⟨-, hp⟩ := abort_ok h
      rw [hp, sync_statuses]
      dsimp only
      exact errorStatuses_getElem?_of_not_mem _ _ _ _ hmem
    · intro p' h
      obtain ⟨-, -, -, hst, -⟩ := cancel_ok h
      rw [hst]
      exact errorStatuses_getElem?_of_not_mem _ _ _ _ hmem



/-- Witness for C3 at a concrete pair: completing the dequeued `"hello"` op with
`"world"` succeeds and the status is then `completed`. -/
theorem claim_C3_witness :
    completeOp pairFix opFix (some "world") =
      Except.ok (setStatus pairFix 0 ⟨SState.completed, some "world", true⟩) ∧
    statusState (setStatus pairFix 0 ⟨SState.completed, some "world", true⟩) 0 =
      some SState.completed := by
  have h := claim_C3 (ApplyBackpressureWhenNonEmptyStrategy String) pairFix "a" "r" "e"
    (some "world") opFix 0 0 rfl (by decide)
  exact ⟨h.2.1 rfl, (h.2.2.2.2.1 ⟨SState.completed, some "world", true⟩).1⟩

/-- C9: Window idempotence: on a readable half in a non-terminal state, setting
`window` to its current value returns the pair unchanged: both half states, the
space value and every pending notification are untouched.  The hypotheses state
that the strategy caches the window (as both adjustable strategies do) and that
the writable state agrees with the strategy backpressure answer, which holds of
every reachable pair. -/
theorem claim_C9 (S : Strategy σ α) (p : Pair σ α)
    (hcache : S.onWindowUpdate p.strat p.window = p.strat)
    (hr : p.rState = RState.waiting ∨ p.rState = RState.readable)
    (hbp1 : p.wState = WState.waiting → S.shouldApplyBackpressure p.strat (queueSize p) = true)
    (hbp2 : p.wState = WState.writable →
      S.shouldApplyBackpressure p.strat (queueSize p) = false) :
    setWindow S p p.window = Except.ok p := by
  unfold setWindow
  rw [if_pos hr]
  congr 1
  rw [hcache]
  have heta : ({ p with window := p.window, strat := p.strat } : Pair σ α) = p := rfl
  rw [heta]
  unfold recomputeW
  cases hw : p.wState with
  | writable => simp [hbp2 hw]
  | waiting => simp [hbp1 hw]
  | closed => rfl
  | aborted => rfl
  | cancelled => rfl

/-- Witness for C9: re-setting window 5 on a concrete adjustable pair is a
no-op. -/
theorem claim_C9_witness :
    setWindow AdjustableArrayBufferStrategy pairFix9 5 = Except.ok pairFix9 := by
  exact claim_C9 AdjustableArrayBufferStrategy pairFix9 rfl (Or.inl rfl)
    (by decide) (by decide)



theorem sync_rState_of_ne (p : Pair σ α) (h : p.rState ≠ RState.waiting) :
    (syncReadableAfterEnqueue p).rState = p.rState := by
  unfold syncReadableAfterEnqueue
  rw [if_neg h]

theorem step_rState_cancelled (S : Strategy σ α) (rs : RunState σ α) (a : Act α)
    (h : rs.p.rState = RState.cancelled) : (step S rs a).p.rState = RState.cancelled := by
  cases a with
  | write x =>
    dsimp only [step]; split
    · next op p' heq =>
        obtain ⟨-, -, hp⟩ := write_ok heq
        rw [hp, recomputeW_rState, sync_rState_of_ne]
        · exact h
        · dsimp only; rw [h]; simp
    · exact h
  | read =>
    dsimp only [step]; split
    · next op p' heq =>
        obtain ⟨hr, -⟩ := read_ok heq
        rw [hr] at h
        simp at h
    · exact h
  | close =>
    dsimp only [step]; split
    · next p' heq =>
        obtain ⟨-, hp⟩ := close_ok heq
        rw [hp, sync_rState_of_ne]
        · exact h
        · dsimp only; rw [h]; simp
    · exact h
  | abort r =>
    dsimp only [step]; split
    · next p' heq =>
        obtain ⟨-, hp⟩ := abort_ok heq
        rw [hp, sync_rState_of_ne]
        · exact h
        · dsimp only; rw [h]; simp
    · exact h
  | cancel r =>
    dsimp only [step]; split
    · next p' heq =>
        obtain ⟨hpre, -⟩ := cancel_ok heq
        rcases hpre with hpre | hpre <;> rw [hpre] at h <;> simp at h
    · exact h
  | complete k r =>
    dsimp only [step]; split
    · next op heq =>
        split
        · next p' heq₂ =>
            rcases completeOp_ok heq₂ with rfl | ⟨sid, st, rfl⟩
            · exact h
            · exact h
        · exact h
    · exact h
  | error k r =>
    dsimp only [step]; split
    · next op heq =>
        split
        · next p' heq₂ =>
            rcases errorOp_ok heq₂ with rfl | ⟨sid, st, rfl⟩
            · exact h
            · exact h
        · exact h
    · exact h
  | setWindow v =>
    dsimp only [step]; split
    · next p' heq =>
        obtain ⟨hpre, -⟩ := setWindow_ok heq
        rcases hpre with hpre | hpre <;> rw [hpre] at h <;> simp at h
    · exact h

theorem step_wState_aborted (S : Strategy σ α) (rs : RunState σ α) (a : Act α)
    (h : rs.p.wState = WState.aborted) : (step S rs a).p.wState = WState.aborted := by
  cases a with
  | write x =>
    dsimp only [step]; split
    · next op p' heq =>
        obtain ⟨hpre, -⟩ := write_ok heq
        rcases hpre with hpre | hpre <;> rw [hpre] at h <;> simp at h
    · exact h
  | read =>
    dsimp only [step]; split
    · next op p' heq =>
        obtain ⟨-, rest, -, -, -, hab, -⟩ := read_ok heq
        exact hab h
    · exact h
  | close =>
    dsimp only [step]; split
    · next p' heq =>
        obtain ⟨hpre, -⟩ := close_ok heq
        rcases hpre with hpre | hpre <;> rw [hpre] at h <;> simp at h
    · exact h
  | abort r =>
    dsimp only [step]; split
    · next p' heq =>
        obtain ⟨hpre, -⟩ := abort_ok heq
        rcases hpre with hpre | hpre <;> rw [hpre] at h <;> simp at h
    · exact h
  | cancel r =>
    dsimp only [step]; split
    · next p' heq =>
        obtain ⟨-, -, -, -, hab⟩ := cancel_ok heq
        exact hab h
    · exact h
  | complete k r =>
    dsimp only [step]; split
    · next op heq =>
        split
        · next p' heq₂ =>
            rcases completeOp_ok heq₂ with rfl | ⟨sid, st, rfl⟩
            · exact h
            · exact h
        · exact h
    · exact h
  | error k r =>
    dsimp only [step]; split
    · next op heq =>
        split
        · next p' heq₂ =>
            rcases errorOp_ok heq₂ with rfl | ⟨sid, st, rfl⟩
            · exact h
            · exact h
        · exact h
    · exact h
  | setWindow v =>
    dsimp only [step]; split
    · next p' heq =>
        obtain ⟨-, hp⟩ := setWindow_ok heq
        rw [hp]
        exact recomputeW_wState_aborted _ _ h
    · exact h

theorem runFrom_rState_cancelled (S : Strategy σ α) (acts : List (Act α))
    (rs : RunState σ α) (h : rs.p.rState = RState.cancelled) :
    (runFrom S rs acts).p.rState = RState.cancelled := by
  induction acts generalizing rs with
  | nil => exact h
  | cons a rest ih => exact ih _ (step_rState_cancelled S rs a h)

theorem runFrom_wState_aborted (S : Strategy σ α) (acts : List (Act α))
    (rs : RunState σ α) (h : rs.p.wState = WState.aborted) :
    (runFrom S rs acts).p.wState = WState.aborted := by
  induction acts generalizing rs with
  | nil => exact h
  | cons a rest ih => exact ih _ (step_wState_aborted S rs a h)

/-- C6: Terminal absorption: a readable half in state `cancelled` stays
`cancelled` under every further run of surface operations, and `read`, `cancel`
and the `window` setter on it raise a precondition failure; a writable half in
state `aborted` stays `aborted` under every further run, and `write`, `close`
and `abort` on it raise a precondition failure. -/
theorem claim_C6 (S : Strategy σ α) (p : Pair σ α) (acts : List (Act α)) (r e a : α)
    (v : Int) :
    (p.rState = RState.cancelled →
      (runFrom S ⟨p, [], [], []⟩ acts).p.rState = RState.cancelled ∧
      (∃ m, read S p = Except.error m) ∧
      (∃ m, cancel p r = Except.error m) ∧
      (∃ m, setWindow S p v = Except.error m)) ∧
    (p.wState = WState.aborted →
      (runFrom S ⟨p, [], [], []⟩ acts).p.wState = WState.aborted ∧
      (∃ m, write S p a = Except.error m) ∧
      (∃ m, close p = Except.error m) ∧
      (∃ m, abort p e = Except.error m)) := by
  constructor
  · intro h
    refine ⟨runFrom_rState_cancelled S acts _ h, ?_, ?_, ?_⟩
    · exact ⟨"not readable", by simp [read, h]⟩
    · exact ⟨"already terminal", by simp [cancel, h]⟩
    · exact ⟨"already terminal", by simp [setWindow, h]⟩
  · intro h
    refine ⟨runFrom_wState_aborted S acts _ h, ?_, ?_, ?_⟩
    · exact ⟨"not writable", by simp [write, h]⟩
    · exact ⟨"not writable", by simp [close, h]⟩
    · exact ⟨"already terminal", by simp [abort, h]⟩

/-- C5: Pipe completion back-propagation: whenever the head link of the engine
book has a settled downstream status and the upstream status is still waiting,
one engine step mirrors the downstream outcome onto the upstream op —
`complete` with its result, or `error` with its reason — and removes the link,
so the upstream status is advanced exactly once; and in the S4 scenario, after
the downstream reader completes the `"hello"` op with `"hi"`, the original
`helloStatus` reaches state `completed` with result `"hi"`. -/
theorem claim_C5 :
    (∀ (σ₁ σ₂ α : Type) (S₁ : Strategy σ₁ α) (S₂ : Strategy σ₂ α) (src : Pair σ₁ α)
        (dst : Pair σ₂ α) (rest : List (QOp α × Nat)) (l : QOp α × Nat) (s : OpStatus α)
        (sid : Nat) (d : Bool),
        dst.statuses[l.2]? = some s → l.1.statusId = some sid →
        statusState src sid = some SState.waiting →
        (s.state = SState.completed →
          pipeStep S₁ S₂ ⟨src, dst, l :: rest, d⟩ =
            ⟨setStatus src sid ⟨SState.completed, s.result, true⟩, dst, rest, d⟩) ∧
        (∀ r, s.state = SState.errored → s.result = some r →
          pipeStep S₁ S₂ ⟨src, dst, l :: rest, d⟩ =
            ⟨setStatus src sid ⟨SState.errored, some r, true⟩, dst, rest, d⟩)) ∧
    s4 = Except.ok
      (RState.waiting, RState.waiting, RState.readable,
        (OpType.data, some "hello"), RState.readable,
        (OpType.data, some "world"), OpType.close, some SState.waiting,
        (some SState.completed, some (some "hi"))) := by
  constructor
  · intro σ₁ σ₂ α S₁ S₂ src dst rest l s sid d hs hsid hwait
    obtain ⟨st0, hst0, hst0w⟩ := Option.map_eq_some'.mp hwait
    constructor
    · intro hcompleted
      simp [pipeStep, settledLink, hs, hcompleted, applyMirror, completeOp, hsid,
        completeStatus, hst0, hst0w]
    · intro rr herrored hres
      simp [pipeStep, settledLink, hs, herrored, hres, applyMirror, errorOp, hsid,
        errorStatus, hst0, hst0w]
  · rfl

/-- C7: Locked-half precondition failures are synchronous: while a reader
obtained via `getReader()` holds the exclusive lock, every direct use of the
locked readable half — `state`, `readable`, `read`, `cancel`, `errored`,
`abortOperation`, `window` get and set, and a second `getReader` — raises a
precondition failure to the caller. -/
theorem claim_C7 (ops : SourceOps τ α) (s : ROS τ α) (v : Int) (reason : α)
    (h : s.reader = true) :
    ROS.stateGet s = Except.error "locked" ∧
    ROS.readableGet s = Except.error "locked" ∧
    ROS.read ops s = Except.error "locked" ∧
    ROS.cancel ops s reason = Except.error "locked" ∧
    ROS.erroredGet s = Except.error "locked" ∧
    ROS.abortOperationGet s = Except.error "locked" ∧
    ROS.windowGet s = Except.error "locked" ∧
    ROS.windowSet ops s v = Except.error "locked" ∧
    ROS.getReader s = Except.error "locked" := by
  simp [ROS.stateGet, ROS.readableGet, ROS.read, ROS.cancel, ROS.erroredGet,
    ROS.abortOperationGet, ROS.windowGet, ROS.windowSet, ROS.getReader, h]

/-- Witness for C7 on a concrete locked facade stream. -/
theorem claim_C7_witness :
    ROS.stateGet rosLockedFix = Except.error "locked" ∧
    ROS.readableGet rosLockedFix = Except.error "locked" ∧
    ROS.read sourceOpsFix rosLockedFix = Except.error "locked" ∧
    ROS.cancel sourceOpsFix rosLockedFix "why" = Except.error "locked" ∧
    ROS.erroredGet rosLockedFix = Except.error "locked" ∧
    ROS.abortOperationGet rosLockedFix = Except.error "locked" ∧
    ROS.windowGet rosLockedFix = Except.error "locked" ∧
    ROS.windowSet sourceOpsFix rosLockedFix 7 = Except.error "locked" ∧
    ROS.getReader rosLockedFix = Except.error "locked" :=
  claim_C7 sourceOpsFix rosLockedFix 7 "why" rfl

/-- C8: evaluation of `_markAborted` at the failing input: with a reader
attached the source dereferences `this._writer` (a field that does not exist;
only `_reader` does) and throws a `TypeError` instead of resolving the reader
errored promise, so the state never becomes `aborted`; without a reader the
stream resolves its own errored notification, transitions to `aborted` and
records the abort operation; and `abortOperation` is readable exactly when the
state is `aborted`. -/
theorem claim_C8 :
    ROS.markAborted rosLockedFix opFix =
      Except.error "TypeError: this._writer is undefined" ∧
    ROS.markAborted rosUnlockedFix opFix =
      Except.ok ({ rosUnlockedFix with
                   erroredResolved := true,
                   state := RState.aborted,
                   abortOperation := some opFix } : ROS Unit String) ∧
    ROS.abortOperationGet
        ({ rosUnlockedFix with
           erroredResolved := true,
           state := RState.aborted,
           abortOperation := some opFix } : ROS Unit String) = Except.ok (some opFix) ∧
    ROS.abortOperationGet rosUnlockedFix = Except.error "not aborted" :=
  ⟨rfl, rfl, rfl, rfl⟩

/-- C10: `ReadableStream.cancel(reason)` on an unlocked stream: fulfilled with
undefined without invoking the underlying source cancel when the controller
state is already `closed`; rejected with the stored error when it is `errored`;
otherwise the state becomes `closed`, `FinishClosingReadableStream` runs (on a
stream with a reader it resolves all pending read requests with done iterator
results and resolves the reader closed promise; on an unlocked stream there are
none) and the underlying source cancel is invoked with the reason. -/
theorem claim_C10 (s : RStream α ε) (reason : ε) (hunlocked : s.reader = none) :
    (s.controllerState = CState.closed →
      RStream.cancel s reason = ⟨s, CancelPromise.fulfilledUndefined, none, []⟩) ∧
    (s.controllerState = CState.errored →
      RStream.cancel s reason = ⟨s, CancelPromise.rejectedStored s.storedError, none, []⟩) ∧
    (s.controllerState = CState.readable →
      RStream.cancel s reason =
        ⟨{ s with controllerState := CState.closed, queue := [] },
          CancelPromise.onSourceCancel, some reason, []⟩) ∧
    (∀ (t : RStream α ε) (rd : RSReader), t.reader = some rd →
      FinishClosingReadableStream t =
        ({ t with reader := some ⟨[], true⟩ },
          rd.readRequests.map (fun i => (i, IterResult.done)))) := by
  refine ⟨?_, ?_, ?_, ?_⟩
  · intro h
    simp [RStream.cancel, hunlocked, h]
  · intro h
    simp [RStream.cancel, hunlocked, h]
  · intro h
    simp [RStream.cancel, hunlocked, h, FinishClosingReadableStream]
  · intro t rd h
    simp [FinishClosingReadableStream, h]

/-- Witness for C10 on a concrete unlocked readable stream. -/
theorem claim_C10_witness :
    RStream.cancel rstreamFix "overfull" =
      ⟨{ rstreamFix with controllerState := CState.closed, queue := [] },
        CancelPromise.onSourceCancel, some "overfull", []⟩ :=
  (claim_C10 rstreamFix "overfull" rfl).2.2.1 rfl


end Streams
